import Mathlib

/-!
Shallow embedding of the `loader` Go package (CSV/sensor-file ingestion into
MongoDB), together with theorems checking the natural-language specification
against the code.

Conventions of the embedding:
* Go machine integers (`int64`) are modelled as `Int`; none of the verified
  paths can overflow 64 bits on the inputs the theorems quantify over.
* Go `float64` values are modelled as exact rationals (`ℚ`); the verified
  properties depend only on parse success/failure and on the zero/value
  distinction, never on rounding.
* Go maps (`map[string]float64`, `bson.M`) are modelled as association lists
  with overwrite-on-insert, so the key set and last-write-wins semantics match.
* Process-global configuration (`GlobalConfig.TimezoneLocation`,
  `EVENT_MAX_AGE_SECONDS`, `GlobalFilePattern`) is passed explicitly.
* The MongoDB driver and GCS client are external collaborators: store replies
  are passed in as explicit values (`InsertOneReply`, `InsertManyReply`).
-/

namespace Loader

/-! ## String utilities (models of Go `strings` / `path/filepath` functions) -/

/-- Does the character list `l` start with the list `pat`? -/
def listStartsWith : List Char → List Char → Bool
  | _, [] => true
  | [], _ :: _ => false
  | a :: as, b :: bs => a = b && listStartsWith as bs

/-- Does `pat` occur as a contiguous sublist of `l`?  Auxiliary recursion. -/
def containsSubAux (pat : List Char) : List Char → Bool
  | [] => listStartsWith [] pat
  | c :: t => listStartsWith (c :: t) pat || containsSubAux pat t

/-- Model of Go `strings.Contains(s, sub)`. -/
def goContains (s sub : String) : Bool :=
  containsSubAux sub.data s.data

/-- Does the character list `l` end with the list `suffix`? -/
def listEndsWith (l suffix : List Char) : Bool :=
  listStartsWith l.reverse suffix.reverse

/-- Model of Go `strings.TrimSpace` (whitespace from both ends). -/
def goTrim (s : String) : String :=
  ((s.data.dropWhile Char.isWhitespace).reverse.dropWhile
    Char.isWhitespace).reverse.asString

/-- Accumulating worker for `goFields`: tokens are maximal runs of
non-whitespace characters. -/
def goFieldsAux : List Char → List Char → List String
  | acc, [] => if acc = [] then [] else [acc.reverse.asString]
  | acc, c :: t =>
    if c.isWhitespace then
      if acc = [] then goFieldsAux [] t
      else acc.reverse.asString :: goFieldsAux [] t
    else goFieldsAux (c :: acc) t

/-- Model of Go `strings.Fields`: split around runs of whitespace,
dropping empty tokens. -/
def goFields (s : String) : List String :=
  goFieldsAux [] s.data

/-- Accumulating worker for `splitOnChar`. -/
def splitOnCharAux (sep : Char) : List Char → List Char → List String
  | acc, [] => [acc.reverse.asString]
  | acc, c :: t =>
    if c = sep then acc.reverse.asString :: splitOnCharAux sep [] t
    else splitOnCharAux sep (c :: acc) t

/-- Model of Go `strings.Split(s, sep)` for a one-character separator (the
loader only splits on `"\n"`, `"\t"` and `";"`). -/
def splitOnChar (sep : Char) (s : String) : List String :=
  splitOnCharAux sep [] s.data

/-- Model of Go `strings.TrimSuffix(s, suffix)`. -/
def goTrimSuffix (s suffix : String) : String :=
  if suffix.data ≠ [] && listEndsWith s.data suffix.data then
    (s.data.take (s.data.length - suffix.data.length)).asString
  else s

/-- Model of Go `filepath.Base` on slash-separated paths: empty path gives
`"."`, trailing slashes are removed, a path of only slashes gives `"/"`,
otherwise the last path element. -/
def pathBase (s : String) : String :=
  if s = "" then "." else
  let cs := (s.data.reverse.dropWhile (fun c => c = '/')).reverse
  if cs = [] then "/" else
  ((cs.reverse.takeWhile (fun c => c ≠ '/')).reverse).asString

/-- Model of Go `filepath.Ext`: the suffix of the final path element starting
at its final dot, or `""` when that element has no dot.  Walks the reversed
character list accumulating until the first `'.'`, stopping at `'/'`. -/
def pathExtAux : List Char → List Char → String
  | _, [] => ""
  | acc, c :: t =>
    if c = '/' then "" else if c = '.' then ('.' :: acc).asString else pathExtAux (c :: acc) t

/-- Model of Go `filepath.Ext(s)`. -/
def pathExt (s : String) : String :=
  pathExtAux [] s.data.reverse

/-- Model of Go `filepath.ToSlash`.  The deployment target is Linux, where
`filepath.Separator` is already `'/'`, so the replacement is the identity. -/
def toSlash (s : String) : String := s

/-- Model of `strings.LastIndex(s, "_")` followed by taking `s[idx+1:]`:
the substring after the last underscore, or `none` when `s` has no
underscore (Go's `LastIndex` returning `-1`). -/
def afterLastUnderscore (s : String) : Option String :=
  if s.data.contains '_' then
    some ((s.data.reverse.takeWhile (fun c => c ≠ '_')).reverse.asString)
  else none

/-! ## Numeric parsing (models of Go `strconv`) -/

/-- The natural number denoted by a list of decimal digit characters. -/
def natOfDigits (l : List Char) : Nat :=
  l.foldl (fun a c => a * 10 + (c.toNat - 48)) 0

/-- Exponent part of a float literal: optional sign then one or more digits. -/
def parseExpPart (cs : List Char) : Option Int :=
  match cs with
  | '+' :: t => if t ≠ [] && t.all Char.isDigit then some (natOfDigits t) else none
  | '-' :: t => if t ≠ [] && t.all Char.isDigit then some (-(natOfDigits t : Int)) else none
  | t => if t ≠ [] && t.all Char.isDigit then some (natOfDigits t) else none

/-- Scale a rational by a (possibly negative) power of ten. -/
def scalePow10 (q : ℚ) (k : Int) : ℚ :=
  if 0 ≤ k then q * (10 : ℚ) ^ k.toNat else q / (10 : ℚ) ^ (-k).toNat

/-- Unsigned decimal mantissa with optional fraction and optional exponent:
the decimal grammar accepted by Go `strconv.ParseFloat`. -/
def parseUnsignedDec (cs : List Char) : Option ℚ :=
  let ip := cs.takeWhile Char.isDigit
  let r1 := cs.dropWhile Char.isDigit
  match r1 with
  | [] => if ip = [] then none else some ((natOfDigits ip : ℚ))
  | '.' :: r2 =>
    let fp := r2.takeWhile Char.isDigit
    let r3 := r2.dropWhile Char.isDigit
    if ip = [] && fp = [] then none else
    let base : ℚ := (natOfDigits ip : ℚ) + (natOfDigits fp : ℚ) / (10 : ℚ) ^ fp.length
    match r3 with
    | [] => some base
    | e :: r4 =>
      if e = 'e' || e = 'E' then (parseExpPart r4).map (scalePow10 base) else none
  | e :: r4 =>
    if (e = 'e' || e = 'E') && ip ≠ [] then
      (parseExpPart r4).map (scalePow10 (natOfDigits ip : ℚ))
    else none

/-- Model of Go `strconv.ParseFloat(s, 64)` restricted to its finite decimal
grammar (the pipeline's sensor values are plain decimals; `Inf`/`NaN`/hex
inputs would simply be further parse successes, which no claim relies on).
`none` models a returned error. -/
def parseFloat (s : String) : Option ℚ :=
  match s.data with
  | '+' :: r => parseUnsignedDec r
  | '-' :: r => (parseUnsignedDec r).map Neg.neg
  | r => parseUnsignedDec r

/-- Model of Go `strconv.ParseInt(s, 10, 64)`: optional sign, one or more
decimal digits, and a 64-bit range check.  `none` models a returned error. -/
def goParseInt64 (s : String) : Option Int :=
  let signed : Int × List Char :=
    match s.data with
    | '+' :: t => (1, t)
    | '-' :: t => (-1, t)
    | t => (1, t)
  let ds := signed.2
  if ds ≠ [] && ds.all Char.isDigit then
    let v : Int := signed.1 * (natOfDigits ds : Int)
    if -(2 ^ 63) ≤ v ∧ v < 2 ^ 63 then some v else none
  else none

/-! ## Time (model of the `time` package operations the loader uses)

`GlobalConfig.TimezoneLocation` is `time.FixedZone("GMT+<h>", h*3600)` for a
whole-hour offset `h` (`config.go`, `InitConfig`); it is passed below as the
integer `tz` (hours east of UTC). -/

/-- A wall-clock date-time as parsed by `time.ParseInLocation`. -/
structure DateTime where
  year : Nat
  month : Nat
  day : Nat
  hour : Nat
  minute : Nat
  second : Nat
deriving DecidableEq, Repr

/-- Is `y` a Gregorian leap year? -/
def isLeapYear (y : Nat) : Bool :=
  (y % 4 = 0 && y % 100 ≠ 0) || y % 400 = 0

/-- Number of days in month `m` of year `y` (0 for an invalid month index,
which the callers below rule out). -/
def daysInMonth (y : Nat) (m : Nat) : Nat :=
  if m = 1 ∨ m = 3 ∨ m = 5 ∨ m = 7 ∨ m = 8 ∨ m = 10 ∨ m = 12 then 31
  else if m = 4 ∨ m = 6 ∨ m = 9 ∨ m = 11 then 30
  else if m = 2 then (if isLeapYear y then 29 else 28)
  else 0

/-- Range validation performed by Go `time.Parse` ("month out of range",
"day out of range", "hour out of range", ...). -/
def mkValidDate (y mo d hh mi ss : Nat) : Option DateTime :=
  if 1 ≤ mo ∧ mo ≤ 12 ∧ 1 ≤ d ∧ d ≤ daysInMonth y mo ∧ hh ≤ 23 ∧ mi ≤ 59 ∧ ss ≤ 59
  then some ⟨y, mo, d, hh, mi, ss⟩ else none

/-- Days from the civil date `y-m-d` to 1970-01-01 (negative before the
epoch); the standard days-from-civil computation on the proleptic Gregorian
calendar, which is what Go's `time` package implements. -/
def daysFromCivil (y : Int) (m d : Nat) : Int :=
  let y' : Int := if m ≤ 2 then y - 1 else y
  let era : Int := Int.fdiv y' 400
  let yoe : Int := y' - era * 400
  let doy : Nat := (153 * (if 2 < m then m - 3 else m + 9) + 2) / 5 + (d - 1)
  let doe : Int := yoe * 365 + Int.fdiv yoe 4 - Int.fdiv yoe 100 + (doy : Int)
  era * 146097 + doe - 719468

/-- `Time.Unix()` of a civil date-time interpreted in a fixed zone `tz` hours
east of UTC: the model of `time.ParseInLocation(layout, s, loc).Unix()`. -/
def civilToUnix (dt : DateTime) (tz : Int) : Int :=
  daysFromCivil (dt.year : Int) dt.month dt.day * 86400
    + (dt.hour : Int) * 3600 + (dt.minute : Int) * 60 + (dt.second : Int)
    - tz * 3600

/-- `t.Truncate(time.Minute).Unix()` in terms of `u = t.Unix()`: Go's
`Truncate` rounds the absolute time down to a multiple of the duration
counted from the zero time (Jan 1, year 1 UTC), whose Unix second
(-62135596800) is itself a multiple of 60, so minute truncation floors the
Unix second to a multiple of 60. -/
def truncMinuteUnix (u : Int) : Int :=
  u - u % 60

/-- Model of `time.ParseInLocation("20060102150405", s, loc)`: exactly 14
decimal digits, fixed-width fields, with Go's range validation. -/
def parseLayout14 (s : String) : Option DateTime :=
  match s.data with
  | [y1, y2, y3, y4, m1, m2, d1, d2, h1, h2, n1, n2, s1, s2] =>
    if [y1, y2, y3, y4, m1, m2, d1, d2, h1, h2, n1, n2, s1, s2].all Char.isDigit then
      mkValidDate (natOfDigits [y1, y2, y3, y4]) (natOfDigits [m1, m2])
        (natOfDigits [d1, d2]) (natOfDigits [h1, h2]) (natOfDigits [n1, n2])
        (natOfDigits [s1, s2])
    else none
  | _ => none

/-- Model of `time.ParseInLocation("2006-01-02 15:04:05", s, loc)`: fixed
separators and fixed-width numeric fields, with Go's range validation. -/
def parseLayout19 (s : String) : Option DateTime :=
  match s.data with
  | [y1, y2, y3, y4, c1, m1, m2, c2, d1, d2, c3, h1, h2, c4, n1, n2, c5, s1, s2] =>
    if c1 = '-' && c2 = '-' && c3 = ' ' && c4 = ':' && c5 = ':'
        && [y1, y2, y3, y4, m1, m2, d1, d2, h1, h2, n1, n2, s1, s2].all Char.isDigit then
      mkValidDate (natOfDigits [y1, y2, y3, y4]) (natOfDigits [m1, m2])
        (natOfDigits [d1, d2]) (natOfDigits [h1, h2]) (natOfDigits [n1, n2])
        (natOfDigits [s1, s2])
    else none
  | _ => none

/-! ## Data model -/

/-- A BSON value as stored by the loader: Go `int`/`int64` fields, `float64`
fields, or a string (exercising the driver's "unsupported type" path). -/
inductive BVal where
  | i (n : Int)
  | f (q : ℚ)
  | s (v : String)
deriving DecidableEq, Repr

/-- A BSON document / `SensorRecord` (`bson.M`, `map[string]interface{}`),
modelled as an association list whose insert overwrites. -/
abbrev Doc := List (String × BVal)

/-- The keys of a document. -/
def docKeys (d : Doc) : List String := d.map Prod.fst

/-- Map-write `d[k] = v` (Go map assignment: overwrite if present, else add). -/
def mapInsert (k : String) (v : BVal) (d : Doc) : Doc :=
  if d.any (fun p => p.1 = k) then d.map (fun p => if p.1 = k then (k, v) else p)
  else d ++ [(k, v)]

/-- Map-write for the parsed `map[string]float64` value maps. -/
def mapInsertQ (k : String) (v : ℚ) (m : List (String × ℚ)) : List (String × ℚ) :=
  if m.any (fun p => p.1 = k) then m.map (fun p => if p.1 = k then (k, v) else p)
  else m ++ [(k, v)]

/-- `Metric` from `loader_amchua.go`: canonical code and raw source name. -/
structure Metric where
  Code : String
  Name : String
deriving DecidableEq, Repr

/-- `AmChuaBox` from `loader_amchua.go`. -/
structure AmChuaBox where
  ID : String
  Metrics : List Metric
deriving DecidableEq, Repr

/-- `BoxBR` from the BaRia loader file. -/
structure BoxBR where
  ID : String
  Path : String
  Metrics : List Metric
deriving DecidableEq, Repr

/-- `FieldMapping` from `config.go`. -/
structure FieldMapping where
  Code : String
  Alias : String
deriving DecidableEq, Repr

/-- `FieldNameMapping` from `config.go`. -/
def FieldNameMapping : List FieldMapping :=
  [⟨"WA", "water"⟩, ⟨"WAU", "water_up"⟩, ⟨"WAD", "water_do"⟩,
   ⟨"WAO", "water_overflow"⟩, ⟨"DR", "drain"⟩, ⟨"DR1", "drain_1"⟩,
   ⟨"DR2", "drain_2"⟩, ⟨"DR3", "drain_3"⟩, ⟨"SA", "salt"⟩, ⟨"RA", "rain"⟩,
   ⟨"TE", "temp"⟩, ⟨"VO", "volt"⟩, ⟨"WP", "water_proof"⟩,
   ⟨"WP1", "water_proof_1"⟩, ⟨"WP2", "water_proof_2"⟩,
   ⟨"WP3", "water_proof_3"⟩, ⟨"WP4", "water_proof_4"⟩, ⟨"TI", "tilt"⟩,
   ⟨"TIS", "tilt_shift"⟩]

/-- `AliasToCode` lookup from `config.go` `init`: first (only) mapping whose
alias equals `k`. -/
def aliasToCode (k : String) : Option String :=
  (FieldNameMapping.find? (fun p => p.Alias = k)).map (fun p => p.Code)

/-- `AmChuaBoxes` from `loader_amchua.go`. -/
def AmChuaBoxes : List AmChuaBox :=
  [⟨"P7IBJJ87", [⟨"RA", "rain_1"⟩]⟩,
   ⟨"LPDNWOUM", [⟨"WAU", "waterup"⟩]⟩,
   ⟨"YLW16RKW", [⟨"DR1", "TaperValve"⟩]⟩,
   ⟨"RIENVHK4", [⟨"DR1", "drain_1"⟩, ⟨"DR2", "drain_2"⟩]⟩,
   ⟨"T5CRC2FV", [⟨"RA", "rain_2"⟩]⟩]

/-- `BoxesBR` from the BaRia loader file. -/
def BoxesBR : List BoxBR :=
  [⟨"S83FIGA0", "HoSongRay_KenhSongRay", [⟨"WAU", "MNK"⟩, ⟨"DR1", "Domocong"⟩]⟩,
   ⟨"A3M6KKN6", "HoSongRay_HaLuu", [⟨"WAD", "MNH"⟩]⟩,
   ⟨"L3Q7718O", "HoDaBang_TramDoMN+MoCong", [⟨"WAU", "MNH"⟩, ⟨"DR1", "Domocong"⟩]⟩,
   ⟨"45J68MTA", "HoXuyenMoc_TramDoMN+MoCong", [⟨"WAU", "MNH"⟩, ⟨"DR1", "Domocong_0"⟩]⟩,
   ⟨"V51HBHL0", "HoSuoiCac_TramDoMN+MoCong", [⟨"WAU", "MNH"⟩, ⟨"DR1", "Domocong_0"⟩]⟩,
   ⟨"2Y63JKZ2", "HoKimLong_TramDoMoCong", [⟨"DR1", "Domocong_KimLong_0"⟩]⟩,
   ⟨"KEHF4MGC", "HoKimLong_TramDoMucNuoc", [⟨"WAU", "MNH_KimLong"⟩]⟩,
   ⟨"JRUTJ9KX", "HoChauPha", [⟨"WAU", "MNH_ChauPha"⟩, ⟨"DR1", "Domocong"⟩]⟩]

/-! ## Format classification and filename timestamp extraction -/

/-- `IsAmChuaFile` from `loader_amchua.go`. -/
def IsAmChuaFile (filename : String) : Bool :=
  goContains filename "HoAmChua_TramTT"

/-- `MatchBariaBox`: first registered BaRia box whose `Path` is a substring of
the slash-normalized file path, else `none` (Go `nil`). -/
def MatchBariaBox (filename : String) : Option BoxBR :=
  BoxesBR.find? (fun box => goContains (toSlash filename) box.Path)

/-- `IsBariaFile`: whether `MatchBariaBox` returns a non-nil box. -/
def IsBariaFile (filename : String) : Bool :=
  (MatchBariaBox filename).isSome

/-- The format family `ProcessCSVFile` dispatches a file to, in the source's
check order: AmChua first, then BaRia, else the generic tabular path. -/
inductive Family where
  | amchua
  | baria
  | tabular
deriving DecidableEq, Repr

/-- The dispatch performed by `ProcessCSVFile` (`config.go`, lines 324-332). -/
def dispatchFamily (filename : String) : Family :=
  if IsAmChuaFile filename then .amchua
  else if IsBariaFile filename then .baria
  else .tabular

/-- `ParseBariaTimestampFromFilename` (BaRia loader): base name, extension
stripped, token after the last underscore, parsed with layout
`20060102150405` in the configured zone, then truncated to the minute. -/
def ParseBariaTimestampFromFilename (tz : Int) (filename : String) :
    Except String Int :=
  let base0 := pathBase filename
  let base := goTrimSuffix base0 (pathExt base0)
  match afterLastUnderscore base with
  | none => .error ("invalid baria filename: " ++ base)
  | some tsStr =>
    match parseLayout14 tsStr with
    | none => .error ("failed to parse time string: " ++ tsStr)
    | some dt => .ok (truncMinuteUnix (civilToUnix dt tz))

/-- `parseFilenameForTimestamp` (`loader_amchua.go`): base name, extension
stripped, must be exactly 14 characters, parsed with layout `20060102150405`
in the configured zone, then truncated to the minute. -/
def parseFilenameForTimestamp (tz : Int) (filename : String) :
    Except String Int :=
  let f1 := pathBase filename
  let base := goTrimSuffix (pathBase f1) (pathExt f1)
  if base.data.length ≠ 14 then
    .error ("filename component has incorrect length: " ++ base)
  else
    match parseLayout14 base with
    | none => .error ("failed to parse time string: " ++ base)
    | some dt => .ok (truncMinuteUnix (civilToUnix dt tz))

/-! ## Store replies (the MongoDB driver as an external collaborator) -/

/-- Outcome of a driver `InsertOne` call: success, or an error whose message
the writers inspect for the duplicate-key marker. -/
inductive InsertOneReply where
  | ok
  | fail (msg : String)
deriving DecidableEq, Repr

/-- Outcome of a driver `InsertMany` call: the number of inserted ids, or an
error message. -/
inductive InsertManyReply where
  | ok (insertedCount : Int)
  | fail (msg : String)
deriving DecidableEq, Repr

/-! ## Content parsers (single-record families) -/

/-- Lines of a file as the Go code splits them:
`strings.Split(strings.TrimSpace(content), "\n")`. -/
def goSplitLines (content : String) : List String :=
  splitOnChar '\n' (goTrim content)

/-- One line of the BaRia content loop: split on tabs, skip if fewer than two
parts, parse the trimmed value as a float, skip the line on parse failure,
otherwise write `key ↦ value` into the map. -/
def bariaStep (m : List (String × ℚ)) (line : String) : List (String × ℚ) :=
  match splitOnChar '\t' line with
  | k :: v :: _ =>
    match parseFloat (goTrim v) with
    | some q => mapInsertQ (goTrim k) q m
    | none => m
  | _ => m

/-- The BaRia content parser (`ProcessBariaFile`, step 3): fold the per-line
step over all lines. -/
def bariaParseLines (lines : List String) : List (String × ℚ) :=
  lines.foldl bariaStep []

/-- One line of the AmChua content loop: trim, skip if empty, split into
whitespace-separated fields, skip if fewer than two, parse the second field
as a float — on failure the whole file is aborted (`return 0, nil`), modelled
as `none`. -/
def amchuaStep (m : List (String × ℚ)) (line : String) :
    Option (List (String × ℚ)) :=
  let l := goTrim line
  if l = "" then some m else
  match goFields l with
  | k :: v :: _ =>
    match parseFloat (goTrim v) with
    | none => none
    | some q => some (mapInsertQ (goTrim k) q m)
  | _ => some m

/-- The AmChua content parser (`ProcessAmChuaFile` value-map loop): process
lines in order, aborting the whole parse on the first value-parse failure. -/
def amchuaParseLines (lines : List String) (m : List (String × ℚ)) :
    Option (List (String × ℚ)) :=
  match lines with
  | [] => some m
  | l :: ls =>
    match amchuaStep m l with
    | none => none
    | some m' => amchuaParseLines ls m'

/-- Does a line make the AmChua parser abort?  True iff the trimmed line is
non-empty, has at least two whitespace-separated fields, and the second field
fails float parsing.  (`amchuaStep` returns `none` exactly on such lines,
independently of the accumulated map.) -/
def amchuaBadLine (line : String) : Bool :=
  let l := goTrim line
  if l = "" then false else
  match goFields l with
  | _ :: v :: _ => (parseFloat (goTrim v)).isNone
  | _ => false

/-! ## Document building and the single-record writers -/

/-- The document-building loop shared verbatim by `ProcessAmChuaFile`
(lines 143-157) and `ProcessBariaFile` (lines 168-180): start from
`{_id: ts, c: now}` and, for every configured metric, write the parsed value
under the metric's code when its source name is present in the value map,
and the explicit (integer) zero otherwise. -/
def buildMetricDoc (ts now : Int) (metrics : List Metric)
    (vm : List (String × ℚ)) : Doc :=
  metrics.foldl
    (fun d m =>
      mapInsert m.Code
        (match vm.lookup m.Name with
         | some v => BVal.f v
         | none => BVal.i 0) d)
    [("_id", BVal.i ts), ("c", BVal.i now)]

/-- The `InsertOne` tail of `ProcessBariaFile` (lines 191-204): success
inserts one record; an error containing `"duplicate key"` is absorbed as
`(0, nil)`; any other error is returned. -/
def bariaWriteOutcome (reply : InsertOneReply) : Except String Int :=
  match reply with
  | .ok => .ok 1
  | .fail e => if goContains e "duplicate key" then .ok 0 else .error e

/-- `ProcessBariaFile`.  The outer `Option` models the nil-pointer
dereference of the unchecked `box.Metrics` access: `none` is the fault that
would occur when `MatchBariaBox` returned `nil` and the timestamp parse
succeeded.  On the non-faulting paths the result carries the inserted count
and the document that was built. -/
def ProcessBariaFile (tz now : Int) (reply : InsertOneReply)
    (filename content : String) : Option (Except String (Int × Doc)) :=
  let box? := MatchBariaBox filename
  match ParseBariaTimestampFromFilename tz filename with
  | .error e => some (.error ("file " ++ filename ++ ": " ++ e))
  | .ok ts =>
    let vm := bariaParseLines (goSplitLines content)
    match box? with
    | none => none
    | some box =>
      let doc := buildMetricDoc ts now box.Metrics vm
      match bariaWriteOutcome reply with
      | .ok n => some (.ok (n, doc))
      | .error e => some (.error e)

/-- `ProcessAmChuaFile`: parse the filename timestamp (error propagates),
parse the content value map (a value-parse failure returns `(0, nil)` with
nothing inserted), then for every configured AmChua box build a document and
attempt an `InsertOne`; per-box insert errors (duplicate or otherwise) only
suppress that box's count and never surface.  The result carries the
inserted count and the per-box documents whose insertion was attempted. -/
def ProcessAmChuaFile (tz now : Int) (store : String → InsertOneReply)
    (filename content : String) :
    Except String (Int × List (String × Doc)) :=
  match parseFilenameForTimestamp tz filename with
  | .error e => .error ("file " ++ filename ++ ": " ++ e)
  | .ok ts =>
    match amchuaParseLines (goSplitLines content) [] with
    | none => .ok (0, [])
    | some vm =>
      .ok (AmChuaBoxes.foldl
        (fun acc box =>
          (acc.1 + (match store box.ID with | .ok => 1 | .fail _ => 0),
           acc.2 ++ [(box.ID, buildMetricDoc ts now box.Metrics vm)]))
        (0, []))

/-! ## MongoDB writer layer (`mongodb.go`) -/

/-- `GetInt64FromInterface`: ints pass through, `float64` converts with Go's
truncation toward zero, anything else is an error. -/
def GetInt64FromInterface (v : BVal) : Except String Int :=
  match v with
  | .i n => .ok n
  | .f q => .ok (Int.tdiv q.num (q.den : Int))
  | .s _ => .error "unsupported type for int64 conversion"

/-- `InsertBatch`: empty batches insert nothing without touching the store;
otherwise a success reply yields its inserted count, an error containing
`"E11000 duplicate key error"` is absorbed as `(0, nil)`, and any other
error is returned. -/
def InsertBatch (data : List Doc) (reply : InsertManyReply) :
    Except String Int :=
  if data.length < 1 then .ok 0
  else
    match reply with
    | .ok n => .ok n
    | .fail e =>
      if goContains e "E11000 duplicate key error" then .ok 0 else .error e

/-- `BATCH_SIZE` from `config.go`. -/
def BATCH_SIZE : Nat := 1024

/-- Fuel-indexed worker for `chunksOf`; with `n ≥ 1`, fuel equal to the list
length always suffices (each step consumes at least one element). -/
def chunksOfAux (n : Nat) : Nat → List Doc → List (List Doc)
  | _, [] => []
  | 0, _ :: _ => []
  | fuel + 1, x :: xs => (x :: xs).take n :: chunksOfAux n fuel ((x :: xs).drop n)

/-- Split a list into consecutive chunks of `n` (the batching loop of
`InsertIgnoreDuplicate`; `n` is always the positive constant `BATCH_SIZE`). -/
def chunksOf (n : Nat) (l : List Doc) : List (List Doc) :=
  chunksOfAux n l.length l

/-- The batch loop of `InsertIgnoreDuplicate`: insert each chunk in order,
accumulating counts, stopping at the first propagated error.  `replies`
gives the store's reply to the `i`-th batch. -/
def insertBatchesLoop (replies : Nat → InsertManyReply) :
    List (List Doc) → Nat → Int → Except String Int
  | [], _, acc => .ok acc
  | b :: bs, i, acc =>
    match InsertBatch b (replies i) with
    | .error e => .error e
    | .ok c => insertBatchesLoop replies bs (i + 1) (acc + c)

/-- `InsertIgnoreDuplicate`: insert `data` in batches of `BATCH_SIZE`. -/
def InsertIgnoreDuplicate (data : List Doc) (replies : Nat → InsertManyReply) :
    Except String Int :=
  insertBatchesLoop replies (chunksOf BATCH_SIZE data) 0 0

/-- `FilterNewRecords`: keep, in order, the records whose `_id` converts to
an int64 strictly greater than `maxID`; records with a missing or
inconvertible `_id` are skipped with a warning. -/
def FilterNewRecords (records : List Doc) (maxID : Int) : List Doc :=
  match records with
  | [] => []
  | r :: rs =>
    match (r.lookup "_id").elim (.error "missing _id") GetInt64FromInterface with
    | .error _ => FilterNewRecords rs maxID
    | .ok rID =>
      if rID > maxID then r :: FilterNewRecords rs maxID
      else FilterNewRecords rs maxID

/-- The candidate-selection step of `InsertSensorRecords` (lines 194-209):
an empty collection (no latest record) keeps every candidate, a latest
record with an inconvertible `_id` keeps every candidate with a warning, and
otherwise the candidates are filtered against the watermark. -/
def selectToInsert (maxTs : Option Doc) (records : List Doc) : List Doc :=
  match maxTs with
  | none => records
  | some m =>
    match (m.lookup "_id").elim (.error "missing _id") GetInt64FromInterface with
    | .error _ => records
    | .ok maxID => FilterNewRecords records maxID

/-- `InsertSensorRecords`: read the latest record (a query error propagates),
select the candidates against the watermark, and insert them in batches;
batch errors propagate wrapped in the file/collection context. -/
def InsertSensorRecords (filename boxID : String)
    (latestReply : Except String (Option Doc)) (records : List Doc)
    (replies : Nat → InsertManyReply) : Except String Int :=
  match latestReply with
  | .error e => .error ("file " ++ filename ++ ": " ++ e)
  | .ok maxTs =>
    let toInsert := selectToInsert maxTs records
    match InsertIgnoreDuplicate toInsert replies with
    | .error e =>
      .error ("file " ++ filename ++ ": failed to insert records into sensor_data_"
        ++ boxID ++ ": " ++ e)
    | .ok n => .ok n

/-- The tabular (FamilyC) tail of `ProcessCSVFile` (lines 334-356): a failed
box lookup is logged and absorbed as `(0, nil)`; an `InsertSensorRecords`
error propagates wrapped in the file context. -/
def processCSVTabularTail (filename : String)
    (boxLookup : Except String String)
    (latestReply : Except String (Option Doc)) (records : List Doc)
    (replies : Nat → InsertManyReply) : Except String Int :=
  match boxLookup with
  | .error _ => .ok 0
  | .ok boxID =>
    match InsertSensorRecords filename boxID latestReply records replies with
    | .error e => .error ("file " ++ filename ++ ": " ++ e)
    | .ok n => .ok n

/-! ## FamilyC extraction (`ExtractObject`, `config.go`) -/

/-- The inner column loop of `ExtractObject`: for columns `2 ≤ i` bounded by
both the row length and the header length, parse the cell as a float
(silently dropping unparsable cells) and store it under the alias-resolved
column name (the raw name when unmapped). -/
def extractCols (columns row : List String) (d0 : Doc) : Doc :=
  ((row.drop 2).zip (columns.drop 2)).foldl
    (fun d p =>
      match parseFloat p.1 with
      | none => d
      | some v =>
        mapInsert (match aliasToCode p.2 with | some c => c | none => p.2)
          (BVal.f v) d)
    d0

/-- One data row of `ExtractObject`: rows with fewer than two cells, an
unparsable timestamp (layout `2006-01-02 15:04:05` in the configured zone),
or an unparsable `n` value are skipped; otherwise the record is
`{_id: t.Unix(), n: n}` plus the mapped columns.  Note the row timestamp is
converted with `t.Unix()` directly — without minute truncation. -/
def extractRow (tz : Int) (columns row : List String) : Option Doc :=
  if row.length < 2 then none else
  match parseLayout19 (row.getD 0 "") with
  | none => none
  | some dt =>
    let ts := civilToUnix dt tz
    match parseFloat (row.getD 1 "") with
    | none => none
    | some n =>
      some (extractCols columns row [("_id", BVal.i ts), ("n", BVal.f n)])

/-- `ExtractObject`: requires at least four meta fields, forms the device id
from meta fields 3 and 4, and collects the parseable rows. -/
def ExtractObject (tz : Int) (meta columns : List String)
    (data : List (List String)) : Except String (String × List Doc) :=
  if meta.length < 4 then .error "meta data has insufficient fields"
  else
    .ok (meta.getD 2 "" ++ "_" ++ meta.getD 3 "",
      data.filterMap (extractRow tz columns))

/-! ## File admission patterns (`mongodb.go` pattern section)

A compiled regular expression is modelled extensionally as its matching
predicate `String → Bool`. -/

/-- `FilePattern` from the pattern section of `mongodb.go`. -/
structure FilePattern where
  AllowPatterns : List (String → Bool)
  IgnorePatterns : List (String → Bool)

/-- `ShouldProcessFile`: reject when the global pattern set is nil or the
allow list is empty; then reject when any ignore pattern matches; then admit
iff some allow pattern matches.  (The source guards the ignore loop with a
`len > 0` check that is a no-op for an empty list.) -/
def ShouldProcessFile (gfp : Option FilePattern) (filename : String) : Bool :=
  match gfp with
  | none => false
  | some fp =>
    if fp.AllowPatterns.length < 1 then false
    else if fp.IgnorePatterns.any (fun p => p filename) then false
    else fp.AllowPatterns.any (fun p => p filename)

/-- The matching predicate of the regex `\.csv$`. -/
def patCsv : String → Bool := fun s => listEndsWith s.data ".csv".data

/-- The matching predicate of the regex `\.tmp$`. -/
def patTmp : String → Bool := fun s => listEndsWith s.data ".tmp".data

/-! ## Event age limit and the event handler (`config.go`) -/

/-- `initEventAgeConfig`: the effective `EVENT_MAX_AGE_SECONDS` produced from
the `MAX_EVENT_AGE_SECONDS` environment value (`""` when unset).  Unset or
unparsable values keep the default 86400; a non-zero value below the
300-second minimum is raised to 300; zero (disable) and values ≥ 300 are
taken as configured. -/
def initEventAgeConfig (maxAgeStr : String) : Int :=
  if maxAgeStr = "" then 86400
  else
    match goParseInt64 maxAgeStr with
    | none => 86400
    | some maxAge =>
      if maxAge ≠ 0 ∧ maxAge < 300 then 300 else maxAge

/-- `isEventTooOld`: with age checking disabled (`maxAge = 0`) nothing is too
old; otherwise an event is too old when `time.Since(eventTime)` exceeds the
limit.  Times are in epoch seconds. -/
def isEventTooOld (maxAge now t : Int) : Bool :=
  if maxAge = 0 then false else decide (now - t > maxAge)

/-- The stale-event guard of `helloGCS`:
`!eventTime.IsZero() && isEventTooOld(eventTime)`.  A CloudEvents payload
without a time attribute yields the zero `time.Time`, modelled as `none`. -/
def helloSkipsOld (maxAge now : Int) (evT : Option Int) : Bool :=
  match evT with
  | none => false
  | some t => isEventTooOld maxAge now t

/-- What `helloGCS` hands back to the functions framework. -/
inductive HandlerOutcome where
  | success (skippedOld : Bool) (copiedToFailed : Bool)
  | failure (e : String)
deriving DecidableEq, Repr

/-- Is the outcome an error returned to the transport? -/
def HandlerOutcome.isFailure : HandlerOutcome → Bool
  | .failure _ => true
  | _ => false

/-- `helloGCS` with the event payload already decoded (`name`, `bucket`,
`evT`) and the GCS read + pipeline outcome abstracted as `procRes`:
stale events and filtered files succeed silently; missing name/bucket are
returned as errors; a pipeline error triggers the best-effort copy to
`load_failed/` and the handler then returns `nil` (success) to the
transport. -/
def helloGCS (maxAge now : Int) (evT : Option Int) (name bucket : String)
    (gfp : Option FilePattern) (procRes : Except String Int) :
    HandlerOutcome :=
  if helloSkipsOld maxAge now evT then .success true false
  else if name = "" then .failure "missing file name in event"
  else if bucket = "" then .failure "missing bucket in event"
  else if ShouldProcessFile gfp name = false then .success false false
  else
    match procRes with
    | .error _ => .success false true
    | .ok _ => .success false false

/-! ## Helper lemmas -/

/-- `listStartsWith l pat` holds exactly when `pat` is an initial segment. -/
theorem listStartsWith_iff (pat l : List Char) :
    listStartsWith l pat = true ↔ ∃ r, l = pat ++ r := by
  induction pat generalizing l with
  | nil => simp [listStartsWith]
  | cons b bs ih =>
    cases l with
    | nil => simp [listStartsWith]
    | cons a as =>
      simp only [listStartsWith, Bool.and_eq_true, decide_eq_true_eq, ih,
        List.cons_append, List.cons.injEq]
      constructor
      · rintro ⟨rfl, r, rfl⟩
        exact ⟨r, rfl, rfl⟩
      · rintro ⟨r, rfl, rfl⟩
        exact ⟨rfl, r, rfl⟩

/-- `containsSubAux pat l` holds exactly when `pat` occurs contiguously. -/
theorem containsSubAux_iff (pat l : List Char) :
    containsSubAux pat l = true ↔ ∃ p r, l = p ++ pat ++ r := by
  induction l with
  | nil =>
    simp only [containsSubAux, listStartsWith_iff]
    constructor
    · rintro ⟨r, h⟩
      exact ⟨[], r, h⟩
    · rintro ⟨p, r, h⟩
      rw [List.append_assoc] at h
      rcases List.append_eq_nil.mp h.symm with ⟨rfl, h2⟩
      exact ⟨r, h2.symm⟩
  | cons c t ih =>
    simp only [containsSubAux, Bool.or_eq_true, listStartsWith_iff, ih]
    constructor
    · rintro (⟨r, h⟩ | ⟨p, r, h⟩)
      · exact ⟨[], r, by simpa using h⟩
      · exact ⟨c :: p, r, by simp [h]⟩
    · rintro ⟨p, r, h⟩
      cases p with
      | nil => exact Or.inl ⟨r, by simpa using h⟩
      | cons x xs =>
        right
        refine ⟨xs, r, ?_⟩
        have := (List.cons.injEq .. ▸ h).2
        simpa [List.append_assoc] using this

/-- Occurrence of a substring is transitive through an intermediate string:
a message containing `"E11000 duplicate key error"` also contains
`"duplicate key"`, and similarly for any nested markers. -/
theorem goContains_trans {a b c : String}
    (h1 : goContains a b = true) (h2 : goContains b c = true) :
    goContains a c = true := by
  rw [goContains, containsSubAux_iff] at h1 h2 ⊢
  obtain ⟨p, r, hpr⟩ := h1
  obtain ⟨p', r', hpr'⟩ := h2
  exact ⟨p ++ p', r' ++ r, by simp [hpr, hpr']⟩

/-- `amchuaStep` aborts on a line independently of the accumulated map,
exactly when the line is bad. -/
theorem amchuaStep_none_iff (m : List (String × ℚ)) (l : String) :
    amchuaStep m l = none ↔ amchuaBadLine l = true := by
  unfold amchuaStep amchuaBadLine
  by_cases h : goTrim l = ""
  · simp [h]
  · simp only [h, if_neg, if_false]
    cases hf : goFields (goTrim l) with
    | nil => simp
    | cons k t =>
      cases t with
      | nil => simp
      | cons v rest =>
        cases hp : parseFloat (goTrim v) <;> simp [hp, Option.isNone]

/-- The AmChua parse aborts iff some line is bad. -/
theorem amchuaParseLines_none_iff (lines : List String)
    (m : List (String × ℚ)) :
    amchuaParseLines lines m = none ↔ ∃ l ∈ lines, amchuaBadLine l = true := by
  induction lines generalizing m with
  | nil => simp [amchuaParseLines]
  | cons l ls ih =>
    unfold amchuaParseLines
    cases hs : amchuaStep m l with
    | none =>
      have hb := (amchuaStep_none_iff m l).mp hs
      simp [hb]
    | some m' =>
      have hb : ¬ amchuaBadLine l = true := by
        intro hbad
        rw [← amchuaStep_none_iff m l] at hbad
        rw [hs] at hbad
        exact Option.noConfusion hbad
      simp [ih, hb]

/-- A line with fewer than two whitespace-separated fields leaves the AmChua
parser's map unchanged. -/
theorem amchuaStep_short (m : List (String × ℚ)) (l : String)
    (h : (goFields (goTrim l)).length < 2) : amchuaStep m l = some m := by
  unfold amchuaStep
  by_cases he : goTrim l = ""
  · simp [he]
  · simp only [he, if_neg, if_false]
    cases hf : goFields (goTrim l) with
    | nil => simp
    | cons k t =>
      cases t with
      | nil => simp
      | cons v rest =>
        rw [hf] at h
        simp only [List.length_cons] at h
        omega

/-- Content whose every line has fewer than two fields parses to the
unchanged (empty) map. -/
theorem amchuaParseLines_all_short (lines : List String)
    (m : List (String × ℚ))
    (h : ∀ l ∈ lines, (goFields (goTrim l)).length < 2) :
    amchuaParseLines lines m = some m := by
  induction lines generalizing m with
  | nil => rfl
  | cons l ls ih =>
    unfold amchuaParseLines
    rw [amchuaStep_short m l (h l (by simp))]
    exact ih m (fun x hx => h x (by simp [hx]))

/-- A tab-split line with at least two parts whose value fails float parsing
leaves the BaRia parser's map unchanged. -/
theorem bariaStep_badValue (m : List (String × ℚ)) (line : String)
    (k v : String) (rest : List String)
    (hsplit : splitOnChar '\t' line = k :: v :: rest)
    (hbad : parseFloat (goTrim v) = none) : bariaStep m line = m := by
  unfold bariaStep
  rw [hsplit]
  simp [hbad]

deriving instance DecidableEq for Except

/-! ## Claim C1 -/

/-- C1 counterexample: the claim "every timestamp extracted by the pipeline
... including FamilyC row timestamps ... is truncated to the start of its
minute before being converted to an epoch-seconds integer used as the
record's primary key" is false on the code: `ExtractObject` converts a row
timestamp with `t.Unix()` directly, so the row `2025-01-01 00:00:37` (zone
GMT+7) yields primary key 1735664437, not the minute-truncated 1735664400. -/
theorem claim_C1_counterexample :
    ∃ recs r,
      ExtractObject 7 ["TOA5", "T1", "CR300", "19531"] ["TIMESTAMP", "RECORD"]
          [["2025-01-01 00:00:37", "1"]] = .ok ("CR300_19531", recs)
        ∧ r ∈ recs ∧ r.lookup "_id" = some (BVal.i 1735664437)
        ∧ BVal.i 1735664437 ≠ BVal.i (truncMinuteUnix 1735664437) := by
  refine ⟨[[("_id", BVal.i 1735664437), ("n", BVal.f 1)]],
    [("_id", BVal.i 1735664437), ("n", BVal.f 1)], ?_, ?_, ?_, ?_⟩
  · decide
  · decide
  · decide
  · decide

/-- C1 (amended): the filename-embedded timestamps (FamilyA after the last
underscore, FamilyB the whole base name) are truncated to the start of their
minute before the epoch-seconds conversion, but the content-embedded FamilyC
row timestamps are converted without truncation, preserving the seconds. -/
theorem claim_C1 :
    (∀ tz f ts, ParseBariaTimestampFromFilename tz f = .ok ts → ts % 60 = 0)
    ∧ (∀ tz f ts, parseFilenameForTimestamp tz f = .ok ts → ts % 60 = 0)
    ∧ (∃ recs r,
        ExtractObject 7 ["TOA5", "T1", "CR300", "19531"] ["TIMESTAMP", "RECORD"]
            [["2025-01-01 00:00:37", "1"]] = .ok ("CR300_19531", recs)
          ∧ r ∈ recs ∧ r.lookup "_id" = some (BVal.i 1735664437)
          ∧ (1735664437 : Int) % 60 = 37) := by
  refine ⟨?_, ?_, ?_⟩
  · intro tz f ts h
    simp only [ParseBariaTimestampFromFilename] at h
    split at h
    · exact Except.noConfusion h
    · split at h
      · exact Except.noConfusion h
      · injection h with h'
        subst h'
        unfold truncMinuteUnix
        omega
  · intro tz f ts h
    simp only [parseFilenameForTimestamp] at h
    split at h
    · exact Except.noConfusion h
    · split at h
      · exact Except.noConfusion h
      · injection h with h'
        subst h'
        unfold truncMinuteUnix
        omega
  · refine ⟨[[("_id", BVal.i 1735664437), ("n", BVal.f 1)]],
      [("_id", BVal.i 1735664437), ("n", BVal.f 1)], ?_, ?_, ?_, ?_⟩
    · decide
    · decide
    · decide
    · decide

/-- C1 witness: the amended theorem applied to a concrete FamilyA filename;
the extracted key 1766840400 (2025-12-27 20:00:00 GMT+7) is minute-aligned. -/
theorem claim_C1_witness :
    ParseBariaTimestampFromFilename 7 "HoSongRay_KenhSongRay/x_20251227200009.txt"
        = .ok 1766840400
      ∧ (1766840400 : Int) % 60 = 0 :=
  ⟨by decide,
    claim_C1.1 7 "HoSongRay_KenhSongRay/x_20251227200009.txt" 1766840400 (by decide)⟩

/-! ## Claim C2 -/

/-- The fuel argument of `chunksOfAux` is irrelevant once it covers the list
length (for a positive chunk size). -/
theorem chunksOfAux_fuel (n : Nat) (hn : n ≠ 0) :
    ∀ fuel fuel' (l : List Doc), l.length ≤ fuel → l.length ≤ fuel' →
      chunksOfAux n fuel l = chunksOfAux n fuel' l := by
  intro fuel
  induction fuel with
  | zero =>
    intro fuel' l hl hl'
    have : l = [] := List.eq_nil_of_length_eq_zero (Nat.le_zero.mp hl)
    subst this
    cases fuel' <;> rfl
  | succ f ih =>
    intro fuel' l hl hl'
    cases l with
    | nil => cases fuel' <;> rfl
    | cons x xs =>
      cases fuel' with
      | zero => simp at hl'
      | succ f' =>
        unfold chunksOfAux
        have hdrop : ((x :: xs).drop n).length ≤ f := by
          simp only [List.length_drop, List.length_cons]
          simp only [List.length_cons] at hl
          omega
        have hdrop' : ((x :: xs).drop n).length ≤ f' := by
          simp only [List.length_drop, List.length_cons]
          simp only [List.length_cons] at hl'
          omega
        rw [ih f' ((x :: xs).drop n) hdrop hdrop']

/-- Unfolding equation for `chunksOf` on a non-empty list with a non-zero
chunk size. -/
theorem chunksOf_cons (n : Nat) (l : List Doc) (h1 : l ≠ []) (h2 : n ≠ 0) :
    chunksOf n l = l.take n :: chunksOf n (l.drop n) := by
  cases l with
  | nil => exact absurd rfl h1
  | cons x xs =>
    show chunksOfAux n (x :: xs).length (x :: xs) = _
    simp only [List.length_cons]
    unfold chunksOfAux
    rw [chunksOf]
    refine congrArg _ ?_
    apply chunksOfAux_fuel n h2
    · simp only [List.length_drop, List.length_cons]
      omega
    · exact le_rfl

/-- A non-empty batch whose reply is a non-duplicate error makes
`InsertBatch` return that error. -/
theorem InsertBatch_fail (data : List Doc) (e : String) (h1 : data ≠ [])
    (h2 : goContains e "E11000 duplicate key error" = false) :
    InsertBatch data (.fail e) = .error e := by
  unfold InsertBatch
  have hlen : ¬ data.length < 1 := by
    have := List.length_pos.mpr h1
    omega
  simp [hlen, h2]

/-- C2 counterexample: the claim "when file processing fails with a
store-level (transient/network) error, that error propagates to the caller
of the event handler" is false on the code: with a concrete connection error
from the store, the pipeline result is an error, yet `helloGCS` returns
success (after requesting the `load_failed/` copy), so nothing propagates to
the transport. -/
theorem claim_C2_counterexample :
    (processCSVTabularTail "a.csv" (.ok "BOX1") (.ok none) [[("_id", BVal.i 5)]]
        (fun _ => .fail "connection reset by peer")).isOk = false
    ∧ helloGCS 86400 1000 (some 900) "a.csv" "b" (some ⟨[patCsv], []⟩)
        (processCSVTabularTail "a.csv" (.ok "BOX1") (.ok none) [[("_id", BVal.i 5)]]
          (fun _ => .fail "connection reset by peer"))
        = .success false true
    ∧ (helloGCS 86400 1000 (some 900) "a.csv" "b" (some ⟨[patCsv], []⟩)
        (processCSVTabularTail "a.csv" (.ok "BOX1") (.ok none) [[("_id", BVal.i 5)]]
          (fun _ => .fail "connection reset by peer"))).isFailure = false := by
  refine ⟨?_, ?_, ?_⟩ <;> decide

/-- C2 (amended): a non-duplicate store error from a batch insert does
propagate through `InsertSensorRecords` and the tabular tail of
`ProcessCSVFile` as an error, but the event handler absorbs it: `helloGCS`
requests the `load_failed/` copy, logs, and returns success to the
transport, so the transport's retry policy is never invoked. -/
theorem claim_C2 :
    ∀ e fname boxID bucket maxAge now evT gfp (records : List Doc),
      goContains e "E11000 duplicate key error" = false →
      records ≠ [] →
      helloSkipsOld maxAge now evT = false →
      fname ≠ "" → bucket ≠ "" →
      ShouldProcessFile gfp fname = true →
      (∃ emsg,
        processCSVTabularTail fname (.ok boxID) (.ok none) records
          (fun _ => .fail e) = .error emsg)
      ∧ helloGCS maxAge now evT fname bucket gfp
          (processCSVTabularTail fname (.ok boxID) (.ok none) records
            (fun _ => .fail e)) = .success false true := by
  intro e fname boxID bucket maxAge now evT gfp records hdup hrec hskip hname hbucket hallow
  have htake : records.take BATCH_SIZE ≠ [] := by
    have := List.length_pos.mpr hrec
    intro hnil
    have := congrArg List.length hnil
    simp only [List.length_take, List.length_nil] at this
    unfold BATCH_SIZE at this
    omega
  have htail : processCSVTabularTail fname (.ok boxID) (.ok none) records
      (fun _ => .fail e)
      = .error ("file " ++ fname ++ ": "
          ++ ("file " ++ fname ++ ": failed to insert records into sensor_data_"
              ++ boxID ++ ": " ++ e)) := by
    have hIID : InsertIgnoreDuplicate records (fun _ => .fail e) = .error e := by
      unfold InsertIgnoreDuplicate
      rw [chunksOf_cons BATCH_SIZE records hrec (by unfold BATCH_SIZE; omega)]
      unfold insertBatchesLoop
      rw [InsertBatch_fail (records.take BATCH_SIZE) e htake hdup]
    unfold processCSVTabularTail InsertSensorRecords selectToInsert
    simp only []
    rw [hIID]
  refine ⟨⟨_, htail⟩, ?_⟩
  rw [htail]
  unfold helloGCS
  rw [hskip]
  simp [hname, hbucket, hallow]

/-- C2 witness: the amended theorem at a concrete connection-reset error. -/
theorem claim_C2_witness :
    (∃ emsg,
      processCSVTabularTail "a.csv" (.ok "BOX1") (.ok none) [[("_id", BVal.i 5)]]
        (fun _ => .fail "connection reset by peer") = .error emsg)
    ∧ helloGCS 86400 1000 (some 900) "a.csv" "b" (some ⟨[patCsv], []⟩)
        (processCSVTabularTail "a.csv" (.ok "BOX1") (.ok none) [[("_id", BVal.i 5)]]
          (fun _ => .fail "connection reset by peer")) = .success false true :=
  claim_C2 "connection reset by peer" "a.csv" "BOX1" "b" 86400 1000 (some 900)
    (some ⟨[patCsv], []⟩) [[("_id", BVal.i 5)]] (by decide) (by decide)
    (by decide) (by decide) (by decide) (by decide)

/-! ## Claim C3 -/

/-- C3: FamilyC watermark filtering.  (1) Every record kept by
`FilterNewRecords` has an `_id` converting to an int strictly greater than
the watermark; (2) the candidate batch `{T-1, T, T+1, T+2}` keeps exactly
`{T+1, T+2}`; (3) when the latest stored record has primary key `T`, the
writer's candidate selection is exactly `FilterNewRecords · T`; (4) when the
collection is empty (no latest record), all candidates are kept. -/
theorem claim_C3 :
    (∀ (recs : List Doc) (r : Doc) (T : Int), r ∈ FilterNewRecords recs T →
      ∃ n, (r.lookup "_id").elim (Except.error "missing _id")
          GetInt64FromInterface = .ok n ∧ n > T)
    ∧ (∀ T : Int,
        FilterNewRecords
          [[("_id", BVal.i (T - 1))], [("_id", BVal.i T)],
           [("_id", BVal.i (T + 1))], [("_id", BVal.i (T + 2))]] T
        = [[("_id", BVal.i (T + 1))], [("_id", BVal.i (T + 2))]])
    ∧ (∀ (recs : List Doc) (T : Int) (maxRec : Doc),
        maxRec.lookup "_id" = some (BVal.i T) →
        selectToInsert (some maxRec) recs = FilterNewRecords recs T)
    ∧ (∀ recs : List Doc, selectToInsert none recs = recs) := by
  refine ⟨?_, ?_, ?_, ?_⟩
  · intro recs
    induction recs with
    | nil =>
      intro r T h
      simp only [FilterNewRecords] at h
      exact absurd h (List.not_mem_nil r)
    | cons r' rs ih =>
      intro r T h
      unfold FilterNewRecords at h
      split at h
      · exact ih r T h
      · split at h
        · rcases List.mem_cons.mp h with rfl | hmem
          · exact ⟨_, by assumption, by assumption⟩
          · exact ih r T hmem
        · exact ih r T h
  · intro T
    simp only [FilterNewRecords, List.lookup, Option.elim, GetInt64FromInterface,
      beq_self_eq_true]
    rw [if_neg (by omega), if_neg (by omega), if_pos (by omega), if_pos (by omega)]
  · intro recs T maxRec h
    simp only [selectToInsert, h, Option.elim, GetInt64FromInterface]
  · intro recs
    rfl

/-- C3 witness: the theorem's parts applied at concrete values. -/
theorem claim_C3_witness :
    (∃ n, (([( "_id", BVal.i 5)] : Doc).lookup "_id").elim
        (Except.error "missing _id") GetInt64FromInterface = .ok n ∧ n > 3)
    ∧ FilterNewRecords
        [[("_id", BVal.i 9)], [("_id", BVal.i 10)],
         [("_id", BVal.i 11)], [("_id", BVal.i 12)]] 10
      = [[("_id", BVal.i 11)], [("_id", BVal.i 12)]]
    ∧ selectToInsert (some [("_id", BVal.i 10)]) [[("_id", BVal.i 12)]]
      = FilterNewRecords [[("_id", BVal.i 12)]] 10 :=
  ⟨claim_C3.1 [[("_id", BVal.i 5)]] [("_id", BVal.i 5)] 3 (by decide),
    claim_C3.2.1 10,
    claim_C3.2.2.1 [[("_id", BVal.i 12)]] 10 [("_id", BVal.i 10)] (by decide)⟩

/-! ## Claim C4 -/

/-- C4: a duplicate-primary-key error from the store (a message carrying
MongoDB's `E11000 duplicate key error` marker) is absorbed by every writer:
the FamilyA single-record write returns `(0, nil)`; the FamilyC batch insert
returns `(0, nil)`; and a FamilyB run whose every per-box insert fails with
that error completes with inserted count 0 and no error surfacing to the
caller. -/
theorem claim_C4 :
    ∀ e, goContains e "E11000 duplicate key error" = true →
      bariaWriteOutcome (.fail e) = .ok 0
      ∧ (∀ data : List Doc, InsertBatch data (.fail e) = .ok 0)
      ∧ (∀ tz now fname content ts,
          parseFilenameForTimestamp tz fname = .ok ts →
          ∃ docs, ProcessAmChuaFile tz now (fun _ => .fail e) fname content
            = .ok (0, docs)) := by
  intro e he
  have hdup : goContains e "duplicate key" = true :=
    goContains_trans he (by decide)
  refine ⟨?_, ?_, ?_⟩
  · simp [bariaWriteOutcome, hdup]
  · intro data
    unfold InsertBatch
    by_cases hd : data.length < 1
    · rw [if_pos hd]
    · rw [if_neg hd]
      simp [he]
  · intro tz now fname content ts hts
    unfold ProcessAmChuaFile
    rw [hts]
    cases hvm : amchuaParseLines (goSplitLines content) [] with
    | none => exact ⟨[], rfl⟩
    | some vm => exact ⟨_, rfl⟩

/-- C4 witness: the theorem applied at a concrete MongoDB duplicate-key
message and a concrete FamilyB file. -/
theorem claim_C4_witness :
    bariaWriteOutcome (.fail "E11000 duplicate key error collection: db.x") = .ok 0
    ∧ InsertBatch [[("_id", BVal.i 1)]]
        (.fail "E11000 duplicate key error collection: db.x") = .ok 0
    ∧ ∃ docs,
        ProcessAmChuaFile 7 0
          (fun _ => .fail "E11000 duplicate key error collection: db.x")
          "HoAmChua_TramTT/20251129190000.txt" "rain_1 5.5" = .ok (0, docs) :=
  ⟨(claim_C4 "E11000 duplicate key error collection: db.x" (by decide)).1,
    (claim_C4 "E11000 duplicate key error collection: db.x" (by decide)).2.1
      [[("_id", BVal.i 1)]],
    (claim_C4 "E11000 duplicate key error collection: db.x" (by decide)).2.2
      7 0 "HoAmChua_TramTT/20251129190000.txt" "rain_1 5.5" 1764417600 (by decide)⟩

/-! ## Claim C5 -/

/-- C5: asymmetric value-parse failure policy.  FamilyA (BaRia): a line
whose value token fails float parsing is skipped and the remaining lines are
still processed (parsing with the bad line equals parsing without it).
FamilyB (AmChua): a single bad line anywhere in the content aborts the whole
file — `ProcessAmChuaFile` returns success with zero records and attempts no
insert for any box. -/
theorem claim_C5 :
    (∀ pre post line k v rest,
        splitOnChar '\t' line = k :: v :: rest →
        parseFloat (goTrim v) = none →
        bariaParseLines (pre ++ line :: post) = bariaParseLines (pre ++ post))
    ∧ (∀ tz now store fname content ts,
        parseFilenameForTimestamp tz fname = .ok ts →
        (∃ l ∈ splitOnChar '\n' (goTrim content), amchuaBadLine l = true) →
        ProcessAmChuaFile tz now store fname content = .ok (0, [])) := by
  constructor
  · intro pre post line k v rest hs hb
    unfold bariaParseLines
    rw [List.foldl_append, List.foldl_append, List.foldl_cons,
      bariaStep_badValue _ _ k v rest hs hb]
  · intro tz now store fname content ts hts hbad
    have hvm : amchuaParseLines (goSplitLines content) [] = none :=
      (amchuaParseLines_none_iff _ _).mpr hbad
    simp only [ProcessAmChuaFile, hts, hvm]

/-- C5 witness: both halves at concrete inputs — a bad tab-separated value
line in a BaRia file is skipped, while one bad line makes an AmChua file a
zero-record no-op. -/
theorem claim_C5_witness :
    bariaParseLines ["MNK\t1.5", "Domocong\tbad", "X\t2"]
      = bariaParseLines ["MNK\t1.5", "X\t2"]
    ∧ ProcessAmChuaFile 7 0 (fun _ => .ok)
        "HoAmChua_TramTT/20251129190000.txt" "rain_1 notanumber" = .ok (0, []) :=
  ⟨claim_C5.1 ["MNK\t1.5"] ["X\t2"] "Domocong\tbad" "Domocong" "bad" []
      (by decide) (by decide),
    claim_C5.2 7 0 (fun _ => .ok) "HoAmChua_TramTT/20251129190000.txt"
      "rain_1 notanumber" 1764417600 (by decide)
      ⟨"rain_1 notanumber", by decide, by decide⟩⟩

/-! ## Claim C6 -/

/-- C6: file admission.  In general, a file is admitted exactly when the
pattern set is present with a non-empty allow list, no ignore pattern
matches, and some allow pattern matches — so any ignore match rejects
regardless of allow, and an empty or unset allow set rejects everything.
Concretely (ignore `\.tmp$`, allow `\.csv$`): `"a.csv"` is admitted,
`"a.tmp"` is rejected even though it also matches an allow pattern, and
`"a.csv"` is rejected when the allow set is empty or the pattern set unset. -/
theorem claim_C6 :
    (∀ (gfp : Option FilePattern) (f : String),
      ShouldProcessFile gfp f = true ↔
        ∃ fp, gfp = some fp ∧ fp.AllowPatterns ≠ []
          ∧ (∀ p ∈ fp.IgnorePatterns, p f = false)
          ∧ (∃ p ∈ fp.AllowPatterns, p f = true))
    ∧ ShouldProcessFile (some ⟨[patCsv], [patTmp]⟩) "a.csv" = true
    ∧ ShouldProcessFile (some ⟨[patCsv, patTmp], [patTmp]⟩) "a.tmp" = false
    ∧ ShouldProcessFile (some ⟨[], [patTmp]⟩) "a.csv" = false
    ∧ ShouldProcessFile none "a.csv" = false := by
  refine ⟨?_, by decide, by decide, by decide, by decide⟩
  intro gfp f
  cases gfp with
  | none => simp [ShouldProcessFile]
  | some fp =>
    constructor
    · intro h
      by_cases h1 : fp.AllowPatterns.length < 1
      · rw [ShouldProcessFile] at h
        simp [h1] at h
      · by_cases h2 : fp.IgnorePatterns.any (fun p => p f) = true
        · rw [ShouldProcessFile] at h
          simp [h1, h2] at h
        · rw [ShouldProcessFile] at h
          simp only [h1, if_false, h2, if_neg] at h
          refine ⟨fp, rfl, ?_, ?_, ?_⟩
          · intro hnil
            rw [hnil] at h1
            simp at h1
          · intro p hp
            rcases Bool.eq_false_or_eq_true (p f) with ht | hf
            · exact absurd (List.any_eq_true.mpr ⟨p, hp, ht⟩) h2
            · exact hf
          · exact List.any_eq_true.mp h
    · rintro ⟨fp', heq, hne, hig, p, hp, hpf⟩
      have : fp' = fp := by injection heq with h'; exact h'.symm
      subst this
      rw [ShouldProcessFile]
      have h1 : ¬ fp'.AllowPatterns.length < 1 := by
        have := List.length_pos.mpr hne
        omega
      rw [if_neg h1]
      have h2 : fp'.IgnorePatterns.any (fun p => p f) = false := by
        rw [List.any_eq_false]
        intro q hq
        simp [hig q hq]
      simp only [h2, Bool.false_eq_true, if_false, if_neg]
      exact List.any_eq_true.mpr ⟨p, hp, hpf⟩

/-! ## Claim C7 -/

/-- C7: single-record document shape.  For every box of the BaRia (FamilyA)
and AmChua (FamilyB) registries and every parsed value map, the document
built for the box has exactly the keys `_id`, `c`, and one key per
configured metric code (in registry order), and every metric whose source
name is absent from the value map is emitted with the explicit value `0`. -/
theorem claim_C7 :
    (∀ box ∈ BoxesBR, ∀ (ts now : Int) (vm : List (String × ℚ)),
        docKeys (buildMetricDoc ts now box.Metrics vm)
          = "_id" :: "c" :: box.Metrics.map Metric.Code
        ∧ ∀ m ∈ box.Metrics, vm.lookup m.Name = none →
            (buildMetricDoc ts now box.Metrics vm).lookup m.Code
              = some (BVal.i 0))
    ∧ (∀ box ∈ AmChuaBoxes, ∀ (ts now : Int) (vm : List (String × ℚ)),
        docKeys (buildMetricDoc ts now box.Metrics vm)
          = "_id" :: "c" :: box.Metrics.map Metric.Code
        ∧ ∀ m ∈ box.Metrics, vm.lookup m.Name = none →
            (buildMetricDoc ts now box.Metrics vm).lookup m.Code
              = some (BVal.i 0)) := by
  constructor
  · intro box hbox ts now vm
    simp only [BoxesBR] at hbox
    fin_cases hbox <;>
      refine ⟨rfl, ?_⟩ <;>
      · intro m hm hnone
        fin_cases hm <;>
        · dsimp only [] at hnone ⊢
          simp only [buildMetricDoc, List.foldl_cons, List.foldl_nil]
          rw [hnone]
          rfl
  · intro box hbox ts now vm
    simp only [AmChuaBoxes] at hbox
    fin_cases hbox <;>
      refine ⟨rfl, ?_⟩ <;>
      · intro m hm hnone
        fin_cases hm <;>
        · dsimp only [] at hnone ⊢
          simp only [buildMetricDoc, List.foldl_cons, List.foldl_nil]
          rw [hnone]
          rfl

/-- C7 witness: the first BaRia box with the empty value map — both metrics
are zero-filled and the key list is exactly the reserved keys plus the
configured codes. -/
theorem claim_C7_witness :
    docKeys (buildMetricDoc 1 2 [⟨"WAU", "MNK"⟩, ⟨"DR1", "Domocong"⟩] [])
      = ["_id", "c", "WAU", "DR1"]
    ∧ (buildMetricDoc 1 2 [⟨"WAU", "MNK"⟩, ⟨"DR1", "Domocong"⟩] []).lookup "WAU"
      = some (BVal.i 0) := by
  have h := claim_C7.1
    ⟨"S83FIGA0", "HoSongRay_KenhSongRay", [⟨"WAU", "MNK"⟩, ⟨"DR1", "Domocong"⟩]⟩
    (by decide) 1 2 []
  exact ⟨h.1, h.2 ⟨"WAU", "MNK"⟩ (by decide) (by decide)⟩

/-! ## Claim C8 -/

/-- C8: stale-event discarding.  The effective maximum age defaults to 86400
(unset or unparsable configuration), 0 disables the check, any non-zero
configured value below 300 is raised to the 300-second floor, and values of
0 or ≥ 300 are taken as configured; an event is then discarded silently
exactly when the check is enabled and its (present) event time is older than
the maximum age, in which case the handler returns success without
processing. -/
theorem claim_C8 :
    initEventAgeConfig "" = 86400
    ∧ (∀ s, goParseInt64 s = none → initEventAgeConfig s = 86400)
    ∧ (∀ s v, goParseInt64 s = some v → v ≠ 0 → v < 300 →
        initEventAgeConfig s = 300)
    ∧ (∀ s v, goParseInt64 s = some v → (v = 0 ∨ 300 ≤ v) →
        initEventAgeConfig s = v)
    ∧ (∀ maxAge now evT, helloSkipsOld maxAge now evT = true ↔
        maxAge ≠ 0 ∧ ∃ t, evT = some t ∧ now - t > maxAge)
    ∧ (∀ maxAge now evT name bucket gfp procRes,
        helloSkipsOld maxAge now evT = true →
        helloGCS maxAge now evT name bucket gfp procRes
          = .success true false) := by
  refine ⟨rfl, ?_, ?_, ?_, ?_, ?_⟩
  · intro s hs
    unfold initEventAgeConfig
    by_cases he : s = ""
    · rw [if_pos he]
    · rw [if_neg he, hs]
  · intro s v hs hv0 hv300
    have he : s ≠ "" := by
      intro h
      rw [h] at hs
      exact Option.noConfusion hs
    unfold initEventAgeConfig
    rw [if_neg he, hs]
    simp only []
    rw [if_pos ⟨hv0, hv300⟩]
  · intro s v hs hrange
    have he : s ≠ "" := by
      intro h
      rw [h] at hs
      exact Option.noConfusion hs
    unfold initEventAgeConfig
    rw [if_neg he, hs]
    simp only []
    rw [if_neg (show ¬(v ≠ 0 ∧ v < 300) by omega)]
  · intro maxAge now evT
    cases evT with
    | none => simp [helloSkipsOld]
    | some t =>
      unfold helloSkipsOld isEventTooOld
      by_cases h0 : maxAge = 0
      · simp [h0]
      · simp [h0]
  · intro maxAge now evT name bucket gfp procRes h
    unfold helloGCS
    rw [h]
    rfl

/-- C8 witness: the theorem's floor and discard parts at concrete values —
a configured age of 60 is raised to 300, and an event 301 seconds old under
a 300-second limit is skipped with a silent success. -/
theorem claim_C8_witness :
    initEventAgeConfig "60" = 300
    ∧ (helloSkipsOld 300 1000 (some 699) = true ↔
        (300 : Int) ≠ 0 ∧ ∃ t, (some 699 : Option Int) = some t ∧ 1000 - t > 300)
    ∧ helloGCS 300 1000 (some 699) "f.csv" "b" none (.ok 0)
        = .success true false :=
  ⟨claim_C8.2.2.1 "60" 60 (by decide) (by decide) (by decide),
    claim_C8.2.2.2.2.1 300 1000 (some 699),
    claim_C8.2.2.2.2.2 300 1000 (some 699) "f.csv" "b" none (.ok 0) (by decide)⟩

/-! ## Claim C9 -/

/-- C9: the unchecked `box` dereference in `ProcessBariaFile` never faults
along the pipeline's call path.  `IsBariaFile` is true exactly when some
registered BaRia box's path hint occurs in the (slash-normalized) filename,
which is exactly when `MatchBariaBox` returns a box; and whenever
`ProcessCSVFile`'s dispatch selects the BaRia branch, `ProcessBariaFile`
completes without the nil-dereference fault (modelled as `none`). -/
theorem claim_C9 :
    (∀ f, IsBariaFile f = true ↔
        ∃ b ∈ BoxesBR, goContains (toSlash f) b.Path = true)
    ∧ (∀ f, IsBariaFile f = true ↔ (MatchBariaBox f).isSome = true)
    ∧ (∀ tz now reply f content, dispatchFamily f = Family.baria →
        (ProcessBariaFile tz now reply f content).isSome = true) := by
  refine ⟨?_, ?_, ?_⟩
  · intro f
    unfold IsBariaFile MatchBariaBox
    exact List.find?_isSome
  · intro f
    unfold IsBariaFile
    exact Iff.rfl
  · intro tz now reply f content h
    have hb : IsBariaFile f = true := by
      unfold dispatchFamily at h
      by_cases h1 : IsAmChuaFile f
      · simp [h1] at h
      · by_cases h2 : IsBariaFile f
        · exact h2
        · simp [h1, h2] at h
    obtain ⟨box, hbox⟩ :=
      Option.isSome_iff_exists.mp (by simpa [IsBariaFile] using hb)
    cases hts : ParseBariaTimestampFromFilename tz f with
    | error e => simp [ProcessBariaFile, hts]
    | ok ts =>
      cases hw : bariaWriteOutcome reply with
      | ok n => simp [ProcessBariaFile, hts, hbox, hw]
      | error e => simp [ProcessBariaFile, hts, hbox, hw]

/-- C9 witness: a concrete BaRia-dispatched file processes without fault. -/
theorem claim_C9_witness :
    (ProcessBariaFile 7 0 .ok "a/HoChauPha/x_20251227200009.txt"
      "MNH_ChauPha\t1.5").isSome = true :=
  claim_C9.2.2 7 0 .ok "a/HoChauPha/x_20251227200009.txt" "MNH_ChauPha\t1.5"
    (by decide)

/-! ## Claim C10 -/

/-- C10: a FamilyB file with a valid filename timestamp whose content yields
no key→value pairs (every line has fewer than two whitespace-separated
fields, which covers empty content) does not no-op: one document per
configured AmChua box — five of them — is built and submitted for insertion,
each with every configured metric explicitly zero. -/
theorem claim_C10 :
    ∀ tz now store fname content ts,
      parseFilenameForTimestamp tz fname = .ok ts →
      (∀ l ∈ splitOnChar '\n' (goTrim content),
        (goFields (goTrim l)).length < 2) →
      ∃ n docs,
        ProcessAmChuaFile tz now store fname content = .ok (n, docs)
        ∧ docs.length = 5
        ∧ docs = AmChuaBoxes.map (fun box =>
            (box.ID, [("_id", BVal.i ts), ("c", BVal.i now)]
              ++ box.Metrics.map (fun m => (m.Code, BVal.i 0)))) := by
  intro tz now store fname content ts hts hshort
  have hvm : amchuaParseLines (goSplitLines content) [] = some [] :=
    amchuaParseLines_all_short _ _ hshort
  simp only [ProcessAmChuaFile, hts, hvm, List.foldl_cons, List.foldl_nil,
    List.map_cons, List.map_nil]
  exact ⟨_, _, rfl, rfl, rfl⟩

/-- C10 witness: an empty-content AmChua file at a concrete timestamp
produces the five all-zero documents. -/
theorem claim_C10_witness :
    ∃ n docs,
      ProcessAmChuaFile 7 42 (fun _ => .ok)
          "upload/HoAmChua_TramTT/2025/11/29/20251129190000.txt" ""
        = .ok (n, docs)
      ∧ docs.length = 5
      ∧ docs = AmChuaBoxes.map (fun box =>
          (box.ID, [("_id", BVal.i 1764417600), ("c", BVal.i 42)]
            ++ box.Metrics.map (fun m => (m.Code, BVal.i 0)))) :=
  claim_C10 7 42 (fun _ => .ok)
    "upload/HoAmChua_TramTT/2025/11/29/20251129190000.txt" "" 1764417600
    (by decide) (by decide)

end Loader
